import Mathlib

/-!
# Verification of the copil workflow execution engine

Shallow embedding of the core of the `copilfi/copil` backend:

* the placeholder expression resolver
  (`app/services/action_executor_service.py`, `_resolve_inputs`),
* the graph execution engine (`execute_for_workflow`),
* the grant resolver (`app/services/security/signing_service.py`),
* the trigger evaluator for polling events
  (`app/services/trigger_checker_service.py`, `_check_polling_event`,
  and `app/services/event_checkers/rss_checker_service.py`),
* the workflow entry-node rule (`app/models/workflow.py`, `start_node_id`),
* the provider manager with its circuit breaker
  (`app/services/blockchain/manager.py`; the breaker internals live in the
  external `pybreaker` dependency and are modelled from the spec).

JSON-like Python values are embedded as the inductive `Val`; Python `None`
is the constructor `Val.vNone`.  Machine floats never matter for the claims
under consideration, so numeric values are embedded as `Int`.
-/

set_option autoImplicit false

namespace Copil

/-- Embedding of the JSON-like Python values stored in node configs,
execution data and grant permissions.  `vNone` is Python `None`. -/
inductive Val where
  | vNone : Val
  | vStr (s : String) : Val
  | vNum (n : Int) : Val
  | vBool (b : Bool) : Val
  | vArr (xs : List Val) : Val
  | vDict (d : List (String × Val)) : Val
deriving Inhabited

/-- Python `dict.get(k)`: first binding of `k`, `None` when absent. -/
def dictGet (d : List (String × Val)) (k : String) : Val :=
  match d.lookup k with
  | some v => v
  | none => .vNone

/-- Python `dict[k] = v`: replace the binding in place, else append. -/
def dictSet (d : List (String × Val)) (k : String) (v : Val) : List (String × Val) :=
  match d with
  | [] => [(k, v)]
  | (k0, v0) :: rest =>
      if k0 = k then (k0, v) :: rest else (k0, v0) :: dictSet rest k v

/-- Python truthiness (`bool(x)`), used by the `all([...])` config checks. -/
def pyTruthy : Val → Bool
  | .vNone => false
  | .vStr s => !s.isEmpty
  | .vNum n => n != 0
  | .vBool b => b
  | .vArr xs => !xs.isEmpty
  | .vDict d => !d.isEmpty

mutual

/-- Python `repr` of an embedded value (used by `str` on dicts/lists). -/
def pyRepr : Val → String
  | .vNone => "None"
  | .vStr s => "\x27" ++ s ++ "\x27"
  | .vNum n => toString n
  | .vBool b => if b then "True" else "False"
  | .vArr xs => "[" ++ String.intercalate ", " (pyReprList xs) ++ "]"
  | .vDict d => "\x7b" ++ String.intercalate ", " (pyReprItems d) ++ "\x7d"

def pyReprList : List Val → List String
  | [] => []
  | v :: vs => pyRepr v :: pyReprList vs

def pyReprItems : List (String × Val) → List String
  | [] => []
  | (k, v) :: kvs => ("\x27" ++ k ++ "\x27: " ++ pyRepr v) :: pyReprItems kvs

end

/-- Python `str(x)`: like `repr` except that strings print bare. -/
def pyStr : Val → String
  | .vStr s => s
  | v => pyRepr v

/-- Characters admitted inside a placeholder by the regex
`\{\{([\w.\[\]'\" ]+)\}\}` of `_resolve_inputs` (ASCII `\w`, dot,
brackets, quotes, space). -/
def isPhChar (c : Char) : Bool :=
  c.isAlphanum || c = '_' || c = '.' || c = '\x5b' || c = '\x5d' ||
  c = '\x27' || c = '\x22' || c = ' '

/-- `re.match` of the placeholder regex against `s`: the string must begin
with two opening braces, a nonempty run of admitted characters, and two
closing braces.  Anything after the closing braces is ignored by `match`
(the regex is anchored at the start only).  Returns `group(1)`. -/
def matchPlaceholder (s : String) : Option String :=
  match s.toList with
  | '\x7b' :: '\x7b' :: rest =>
      let body := rest.takeWhile isPhChar
      if body.isEmpty then none
      else
        match rest.drop body.length with
        | '\x7d' :: '\x7d' :: _ => some (String.mk body)
        | _ => none
  | _ => none

/-- Python `s.split(sep)` for a one-character separator (all separators in
`_resolve_inputs` are single characters); `''.split(c) = ['']`. -/
def splitChar (sep : Char) : List Char → List (List Char)
  | [] => [[]]
  | c :: rest =>
      let r := splitChar sep rest
      if c = sep then [] :: r
      else
        match r with
        | [] => [[c]]
        | h :: t => (c :: h) :: t

/-- Python `s.strip()`: drop whitespace from both ends. -/
def stripChars (cs : List Char) : List Char :=
  ((cs.dropWhile Char.isWhitespace).reverse.dropWhile Char.isWhitespace).reverse

/-- The path split of `_resolve_inputs`:
`path.replace("'","").replace('"',"").replace(']','').split('[')`
(each `replace` deletes every occurrence of a single character),
then each part `.split('.')`, flattened in order. -/
def pathKeys (path : List Char) : List String :=
  let cleaned := path.filter (fun c => c ≠ '\x27' && c ≠ '\x22' && c ≠ '\x5d')
  (((splitChar '\x5b' cleaned).map (splitChar '.')).flatten).map String.mk

/-- Failures of `_resolve_inputs`.  `unresolved` is the
`ValueError("Could not resolve placeholder ...")` branch, which names the
raw placeholder text and the parsed path; `attributeError` is an
`AttributeError` escaping the walker (e.g. `None.get`), which names
neither; it is not in the `except (KeyError, IndexError, TypeError)`
tuple, so it is never re-wrapped. -/
inductive ResolveErr where
  | unresolved (placeholder : String) (path : String) : ResolveErr
  | attributeError : ResolveErr
deriving DecidableEq

/-- One step `resolved_value.get(key_part)` of the path walker: `dict.get`
on a dict, `AttributeError` on anything else (including `None`). -/
def pyGetStep (cur : Val) (k : String) : Except ResolveErr Val :=
  match cur with
  | .vDict d => .ok (dictGet d k)
  | _ => .error .attributeError

/-- The nested walking loop of `_resolve_inputs`; empty key parts are
skipped (`if key_part:`). -/
def walkPath (start : Val) (keys : List String) : Except ResolveErr Val :=
  keys.foldlM (fun cur k => if k.isEmpty then pure cur else pyGetStep cur k) start

/-- Resolution of one config value by `_resolve_inputs`: a string beginning
with a placeholder is replaced by the walk result (a final `None` raises
the naming `ValueError`); every other value passes through. -/
def resolveValue (executionData : List (String × Val)) (v : Val) : Except ResolveErr Val :=
  match v with
  | .vStr s =>
      match matchPlaceholder s with
      | none => .ok v
      | some body =>
          let path := String.mk (stripChars body.toList)
          match walkPath (.vDict executionData) (pathKeys path.toList) with
          | .error e => .error e
          | .ok rv =>
              match rv with
              | .vNone => .error (.unresolved s path)
              | _ => .ok rv
  | _ => .ok v

/-- `_resolve_inputs(config, execution_data)`: the `for key, value in
config.items()` loop, resolving every entry in order and keeping keys;
the first exception aborts the loop. -/
def resolveInputs (config : List (String × Val)) (executionData : List (String × Val)) :
    Except ResolveErr (List (String × Val)) :=
  match config with
  | [] => .ok []
  | (k, v) :: rest =>
      match resolveValue executionData v with
      | .error e => .error e
      | .ok r =>
          match resolveInputs rest executionData with
          | .error e => .error e
          | .ok out => .ok ((k, r) :: out)

/-- Spec-side predicate for C5: the string is *entirely* a single
double-brace placeholder (nothing before or after the token). -/
def isEntirePlaceholder (s : String) : Bool :=
  match s.toList with
  | '\x7b' :: '\x7b' :: rest =>
      let body := rest.takeWhile isPhChar
      if body.isEmpty then false
      else
        match rest.drop body.length with
        | ['\x7d', '\x7d'] => true
        | _ => false
  | _ => false

/-! ## Workflow graph model (`app/models/workflow.py`) -/

/-- A graph node `{'id': ..., 'type': ..., 'config': ...}`.  The engine and
the claims only exercise nodes whose `id` and `type` keys are present
strings, so they are embedded as plain fields. -/
structure PNode where
  id : String
  type : String
  config : List (String × Val)

/-- A graph edge `{'source': ..., 'target': ..., 'label': ...}`.  `label`
may be absent (`edge.get('label')` is `None`). -/
structure PEdge where
  source : String
  target : String
  label : Option String

/-- The engine-relevant part of a `Workflow` row plus its owner's smart
contract account address (`workflow.user.sca_address`). -/
structure PWorkflow where
  nodes : List PNode
  edges : List PEdge
  userId : String
  scaAddress : String

/-- Whether a node id occurs as the target of some edge
(`target_ids = {edge.get('target') for edge in self.edges}`). -/
def isTargetOf (edges : List PEdge) (i : String) : Bool :=
  edges.any (fun e => e.target == i)

/-- `Workflow.start_node_id`: the first node (in list order) that is not
the target of any edge; if every node is targeted, the first node. -/
def startNodeId (w : PWorkflow) : Option String :=
  match w.nodes with
  | [] => none
  | n0 :: _ =>
      match w.nodes.find? (fun n => !(isTargetOf w.edges n.id)) with
      | some n => some n.id
      | none => some n0.id

/-! ## Provider quotes and results (`app/services/blockchain/base.py`)

Each quote is embedded with exactly the fields the executor reads; the
pydantic models carry more, but none of the claims mention them.
Amount fields are the strings the providers return (`from_amount: str`,
`amount: str`); the executor itself applies `int(...)`. -/

structure SwapQuoteE where
  quote_id : String
  from_amount : String
  route : List (List (String × Val))

structure BridgeQuoteE where
  quote_id : String
  amount : String

structure StakingQuoteE where
  quote_id : String
  amount : String
  staking_pool_address : String

structure LendingQuoteE where
  quote_id : String
  amount : String
  lending_pool_address : String

/-- `TransactionResult` as read by the executor (`transaction_hash`,
`status.value`). -/
structure TransactionResultE where
  transaction_hash : String
  status : String

/-- The quote returned by `_get_quote_for_action`, tagged by action type. -/
inductive Quote where
  | swap (q : SwapQuoteE)
  | bridge (q : BridgeQuoteE)
  | stake (q : StakingQuoteE)
  | lend (q : LendingQuoteE)

/-- The `hasattr(quote, 'from_amount') / hasattr(quote, 'amount')`
dispatch of `_sign_and_execute`: `SwapQuote` exposes `from_amount`, the
other quote classes expose `amount`. -/
def quoteAmountStr : Quote → String
  | .swap q => q.from_amount
  | .bridge q => q.amount
  | .stake q => q.amount
  | .lend q => q.amount

def quoteIdOf : Quote → String
  | .swap q => q.quote_id
  | .bridge q => q.quote_id
  | .stake q => q.quote_id
  | .lend q => q.quote_id

/-- `quote.dict()` over the embedded fields, stored in the node output. -/
def quoteDict : Quote → Val
  | .swap q => .vDict [("quote_id", .vStr q.quote_id), ("from_amount", .vStr q.from_amount),
      ("route", .vArr (q.route.map Val.vDict))]
  | .bridge q => .vDict [("quote_id", .vStr q.quote_id), ("amount", .vStr q.amount)]
  | .stake q => .vDict [("quote_id", .vStr q.quote_id), ("amount", .vStr q.amount),
      ("staking_pool_address", .vStr q.staking_pool_address)]
  | .lend q => .vDict [("quote_id", .vStr q.quote_id), ("amount", .vStr q.amount),
      ("lending_pool_address", .vStr q.lending_pool_address)]

/-! ## Engine errors -/

/-- Exceptions arising inside the node-execution loop.  `signingError` is
the `SigningException` class; `providerError` stands for exceptions
raised by the blockchain manager (carried by the environment). -/
inductive EngError where
  | valueError (msg : String)
  | keyError (k : String)
  | attributeError
  | signingError (msg : String)
  | providerError (msg : String)
deriving DecidableEq

/-- Python `str(e)` of an engine exception (`KeyError` prints its quoted
key; the attribute-error text is the `None.get` message). -/
def engErrStr : EngError → String
  | .valueError m => m
  | .keyError k => "\x27" ++ k ++ "\x27"
  | .attributeError => "\x27NoneType\x27 object has no attribute \x27get\x27"
  | .signingError m => m
  | .providerError m => m

/-- Lift a resolver failure into the loop; the `ValueError` branch of
`_resolve_inputs` interpolates the placeholder, the path and the current
execution data into its message. -/
def toEngErr (executionData : List (String × Val)) : ResolveErr → EngError
  | .unresolved ph path =>
      .valueError ("Could not resolve placeholder \x27" ++ ph ++ "\x27. Path \x27" ++ path ++
        "\x27 not found in execution data: " ++ pyRepr (.vDict executionData))
  | .attributeError => .attributeError

/-- A session-key grant as seen by the engine (resolved by the signing
service; the engine reads `grant.id` and `grant.public_address`). -/
structure GrantRef where
  id : Nat
  publicAddress : String

/-- The external capabilities the executor calls: on-chain reads, quote
providers, the grant resolver, the signer and the provider execute
endpoints.  Each field mirrors one call the source makes on
`blockchain_manager` or `signing_service`. -/
structure Env where
  onchain : Val → Val → Except EngError Val
  swapQuote : Val → Val → String → Val → Val → String → Except EngError SwapQuoteE
  bridgeQuote : Val → String → Val → Val → String → Except EngError BridgeQuoteE
  stakeQuote : Val → String → Val → Val → String → Except EngError StakingQuoteE
  lendQuote : Val → String → Val → Val → String → Except EngError LendingQuoteE
  findGrant : Val → Int → Option GrantRef
  signMessage : GrantRef → String → String
  execSwap : String → String → String → Except EngError TransactionResultE
  execBridge : String → String → String → Except EngError TransactionResultE
  execStake : String → String → String → Except EngError TransactionResultE
  execSupply : String → String → String → Except EngError TransactionResultE

/-! ## Numeric coercions -/

/-- Python `int(s)` on a string: optional surrounding whitespace, optional
sign, decimal digits; anything else raises `ValueError`. -/
def pyInt (s : String) : Option Int :=
  let digitsVal : List Char → Option Nat := fun ds =>
    if ds.isEmpty || !ds.all Char.isDigit then none
    else some (ds.foldl (fun n c => 10 * n + (c.toNat - '0'.toNat)) 0)
  match stripChars s.toList with
  | '-' :: ds => (digitsVal ds).map (fun n => -(n : Int))
  | '+' :: ds => (digitsVal ds).map (fun n => (n : Int))
  | ds => (digitsVal ds).map (fun n => (n : Int))

/-- Python `float(x)` restricted to the integral values the claims use:
numbers pass, booleans coerce to 0/1, integral strings parse; `None`,
lists, dicts and non-numeric strings fail (`TypeError`/`ValueError`). -/
def pyFloat? : Val → Option Int
  | .vNum n => some n
  | .vBool b => some (if b then 1 else 0)
  | .vStr s => pyInt s
  | _ => none

def Val.isNone : Val → Bool
  | .vNone => true
  | _ => false

/-! ## Condition nodes (`_handle_condition`) -/

/-- The comparison table `ops` of `_handle_condition`, on numbers. -/
def applyCmpInt (oper : String) (a b : Int) : Bool :=
  if oper = ">" then a > b
  else if oper = "<" then a < b
  else if oper = ">=" then a ≥ b
  else if oper = "<=" then a ≤ b
  else if oper = "==" then a = b
  else a ≠ b

/-- The same table on the `str(...)` fallback comparison. -/
def applyCmpStr (oper : String) (a b : String) : Bool :=
  if oper = ">" then decide (b < a)
  else if oper = "<" then decide (a < b)
  else if oper = ">=" then decide (¬ a < b)
  else if oper = "<=" then decide (¬ b < a)
  else if oper = "==" then a == b
  else a != b

def condOperators : List String := [">", "<", ">=", "<=", "==", "!="]

/-- `_handle_condition(config)`: validate the config, fetch the on-chain
value, compare numerically with a string-comparison fallback. -/
def handleCondition (env : Env) (cfg : List (String × Val)) : Except EngError Bool :=
  let source := dictGet cfg "source"
  let operV := dictGet cfg "operator"
  let targetValue := dictGet cfg "value"
  let chain := dictGet cfg "chain"
  if !(pyTruthy source && pyTruthy operV && pyTruthy chain) || targetValue.isNone then
    .error (.valueError "Condition node config is missing required fields (source, operator, value, chain).")
  else
    match env.onchain source chain with
    | .error e => .error e
    | .ok actual =>
        let operStr := match operV with | .vStr o => some o | _ => none
        match operStr with
        | some o =>
            if condOperators.contains o then
              match pyFloat? actual, pyFloat? targetValue with
              | some a, some b => .ok (applyCmpInt o a b)
              | _, _ => .ok (applyCmpStr o (pyStr actual) (pyStr targetValue))
            else .error (.valueError ("Unsupported operator \x27" ++ o ++ "\x27 in condition node."))
        | none =>
            .error (.valueError ("Unsupported operator \x27" ++ pyStr operV ++ "\x27 in condition node."))

/-! ## Quote acquisition (`_handle_*_quote`, `_get_quote_for_action`) -/

/-- `_handle_swap_quote`: `amount` is `str(config.get('amount'))` (so a
missing amount becomes the truthy string `"None"`); the `all([...])`
check uses Python truthiness. -/
def handleSwapQuote (env : Env) (cfg : List (String × Val)) (sca : String) :
    Except EngError SwapQuoteE :=
  let from_asset := dictGet cfg "from_asset"
  let to_asset := dictGet cfg "to_asset"
  let amount := pyStr (dictGet cfg "amount")
  let from_chain := dictGet cfg "from_chain"
  let to_chain := dictGet cfg "to_chain"
  if !(pyTruthy from_asset && pyTruthy to_asset && !amount.isEmpty &&
      pyTruthy from_chain && pyTruthy to_chain) then
    .error (.valueError "Swap action config is missing required fields.")
  else env.swapQuote from_asset to_asset amount from_chain to_chain sca

/-- `_handle_bridge_quote`. -/
def handleBridgeQuote (env : Env) (cfg : List (String × Val)) (sca : String) :
    Except EngError BridgeQuoteE :=
  let asset := dictGet cfg "asset"
  let amount := pyStr (dictGet cfg "amount")
  let from_chain := dictGet cfg "from_chain"
  let to_chain := dictGet cfg "to_chain"
  if !(pyTruthy asset && !amount.isEmpty && pyTruthy from_chain && pyTruthy to_chain) then
    .error (.valueError "Bridge action config is missing required fields.")
  else env.bridgeQuote asset amount from_chain to_chain sca

/-- `_handle_staking_quote`. -/
def handleStakingQuote (env : Env) (cfg : List (String × Val)) (sca : String) :
    Except EngError StakingQuoteE :=
  let asset := dictGet cfg "asset"
  let amount := pyStr (dictGet cfg "amount")
  let from_chain := dictGet cfg "from_chain"
  let staking_pool := dictGet cfg "staking_pool"
  if !(pyTruthy asset && !amount.isEmpty && pyTruthy from_chain && pyTruthy staking_pool) then
    .error (.valueError "Staking action config is missing required fields.")
  else env.stakeQuote asset amount from_chain staking_pool sca

/-- `_handle_lending_quote`. -/
def handleLendingQuote (env : Env) (cfg : List (String × Val)) (sca : String) :
    Except EngError LendingQuoteE :=
  let asset := dictGet cfg "asset"
  let amount := pyStr (dictGet cfg "amount")
  let from_chain := dictGet cfg "from_chain"
  let lending_pool := dictGet cfg "lending_pool"
  if !(pyTruthy asset && !amount.isEmpty && pyTruthy from_chain && pyTruthy lending_pool) then
    .error (.valueError "Lending supply action config is missing required fields.")
  else env.lendQuote asset amount from_chain lending_pool sca

/-- `_get_quote_for_action`: fetch the quote for the action type and
compute `(quote, message_to_sign, target_contract)`.  For a swap the
target is `quote.route[0]['toTokenAddress']` when the route is nonempty
(`KeyError` when the key is missing), else `config.get('from_asset')`. -/
def getQuoteForAction (env : Env) (actionType : String) (cfg : List (String × Val))
    (sca : String) : Except EngError (Quote × String × Val) :=
  if actionType == "swap" then
    match handleSwapQuote env cfg sca with
    | .error e => .error e
    | .ok q =>
        match q.route with
        | [] => .ok (.swap q, q.quote_id, dictGet cfg "from_asset")
        | r0 :: _ =>
            match r0.lookup "toTokenAddress" with
            | some v => .ok (.swap q, q.quote_id, v)
            | none => .error (.keyError "toTokenAddress")
  else if actionType == "bridge" then
    match handleBridgeQuote env cfg sca with
    | .error e => .error e
    | .ok q => .ok (.bridge q, q.quote_id, dictGet cfg "asset")
  else if actionType == "stake" then
    match handleStakingQuote env cfg sca with
    | .error e => .error e
    | .ok q => .ok (.stake q, q.quote_id, .vStr q.staking_pool_address)
  else if actionType == "supply_asset" then
    match handleLendingQuote env cfg sca with
    | .error e => .error e
    | .ok q => .ok (.lend q, q.quote_id, .vStr q.lending_pool_address)
  else
    .error (.valueError ("Unsupported action type for quoting: \x27" ++ actionType ++ "\x27"))

/-! ## Signing and executing (`_sign_and_execute`) -/

/-- `_sign_and_execute`: parse the quote amount with `int(...)`, resolve a
grant for `(target_contract, value)`, raise `SigningException` when none
is found, otherwise sign and dispatch the provider execute call.  The
second component is the audit trace of provider execute invocations
(`(action_type, quote_id)` pairs); the grant-missing branch makes none. -/
def signAndExecute (env : Env) (userId sca : String) (actionType : String)
    (q : Quote) (messageToSign : String) (targetContract : Val) :
    Except EngError TransactionResultE × List (String × String) :=
  match pyInt (quoteAmountStr q) with
  | none =>
      (.error (.valueError ("invalid literal for int() with base 10: \x27" ++
        quoteAmountStr q ++ "\x27")), [])
  | some value =>
      match env.findGrant targetContract value with
      | none =>
          (.error (.signingError ("No valid session key grant found for this action for user " ++
            userId)), [])
      | some grant =>
          let signature := env.signMessage grant messageToSign
          let qid := quoteIdOf q
          if actionType == "swap" then (env.execSwap qid signature sca, [(actionType, qid)])
          else if actionType == "bridge" then (env.execBridge qid signature sca, [(actionType, qid)])
          else if actionType == "stake" then (env.execStake qid signature sca, [(actionType, qid)])
          else if actionType == "supply_asset" then
            (env.execSupply qid signature sca, [(actionType, qid)])
          else (.error (.valueError ("Cannot execute unknown action type: " ++ actionType)), [])

/-! ## Execution records (`app/models/workflow_execution.py`)

The repository carries two `WorkflowExecution` classes; the executor
drives the API of `app/models/workflow_execution.py` (`start_execution`
with a start node, `advance_to_node`, `current_node_id`,
`execution_data`, `fail_execution` with an error dict), which is the
model embedded here. -/

inductive ExecStatus where
  | started
  | inProgress
  | completed
  | failed
deriving DecidableEq

structure ExecutionRec where
  status : ExecStatus
  currentNodeId : Option String
  executionData : List (String × Val)
  result : Option Val
  transactionHash : Option String

/-- A freshly constructed `WorkflowExecution(workflow_id=...)`. -/
def blankExec : ExecutionRec :=
  { status := .started, currentNodeId := none, executionData := [],
    result := none, transactionHash := none }

/-- `start_execution(start_node_id)`. -/
def startExecution (startNode : String) : ExecutionRec :=
  { status := .inProgress, currentNodeId := some startNode, executionData := [],
    result := none, transactionHash := none }

/-- `advance_to_node(next_node_id)` (`next_node_id` may be `None`). -/
def advanceToNode (e : ExecutionRec) (next : Option String) : ExecutionRec :=
  { e with status := .inProgress, currentNodeId := next }

/-- `complete_execution(action_results, ...)`: mark completed, store the
final result, clear the cursor. -/
def completeExecution (e : ExecutionRec) (actionResults : Val) : ExecutionRec :=
  { e with status := .completed, result := some actionResults, currentNodeId := none }

def optStrVal : Option String → Val
  | none => .vNone
  | some s => .vStr s

/-- `fail_execution(error)`: mark failed and record
`{"error": str(error), "failed_at_node": current_node_id}`. -/
def failExecution (e : ExecutionRec) (errorDict : Val) : ExecutionRec :=
  { e with
    status := .failed
    result := some (.vDict [("error", .vStr (pyRepr errorDict)),
      ("failed_at_node", optStrVal e.currentNodeId)]) }

/-! ## The node-execution loop (`execute_for_workflow`) -/

/-- `nodes_map = {node['id']: node for node in workflow.nodes}`: on
duplicate ids the later node wins. -/
def nodesMapGet (nodes : List PNode) (i : String) : Option PNode :=
  nodes.reverse.find? (fun n => n.id == i)

/-- `edges_map.setdefault(edge['source'], []).append(edge)`: the outgoing
edges of a source, in list order. -/
def outgoingEdges (edges : List PEdge) (src : String) : List PEdge :=
  edges.filter (fun e => e.source == src)

/-- `execution.execution_data.setdefault('nodes', {})[nid] = {"output": out}`.
The `'nodes'` entry is engine-owned and always a dict. -/
def setNodeOutput (ed : List (String × Val)) (nid : String) (out : Val) :
    List (String × Val) :=
  let nodesD := match dictGet ed "nodes" with
    | .vDict d => d
    | _ => []
  dictSet ed "nodes" (.vDict (dictSet nodesD nid (.vDict [("output", out)])))

/-- One iteration of the `while execution.current_node_id` loop on node
`nid`: look the node up, resolve its config, dispatch by type, record the
node output and advance the cursor.  The second component is the trace of
provider execute calls this iteration made (also on the error path, where
the exception is returned instead of raised). -/
def stepNode (wf : PWorkflow) (env : Env) (e : ExecutionRec) (nid : String) :
    Except EngError ExecutionRec × List (String × String) :=
  match nodesMapGet wf.nodes nid with
  | none =>
      (.error (.valueError ("Node with ID \x27" ++ nid ++ "\x27 not found in workflow definition.")), [])
  | some node =>
      match resolveInputs node.config e.executionData with
      | .error re => (.error (toEngErr e.executionData re), [])
      | .ok rcfg =>
          if node.type == "condition" then
            match handleCondition env rcfg with
            | .error er => (.error er, [])
            | .ok b =>
                let nodeOut : Val := .vDict [("result", .vBool b),
                  ("message", .vStr ("Condition evaluated to " ++ pyStr (.vBool b)))]
                let lbl := if b then "on_true" else "on_false"
                let nextEdge := (outgoingEdges wf.edges nid).find? (fun ed2 => ed2.label == some lbl)
                let e2 := { e with executionData := setNodeOutput e.executionData nid nodeOut }
                (.ok (advanceToNode e2 (nextEdge.map (fun ed2 => ed2.target))), [])
          else
            match getQuoteForAction env node.type rcfg wf.scaAddress with
            | .error er => (.error er, [])
            | .ok (q, messageToSign, target) =>
                match signAndExecute env wf.userId wf.scaAddress node.type q messageToSign target with
                | (.error er, calls) => (.error er, calls)
                | (.ok tx, calls) =>
                    let nodeOut : Val := .vDict [("tx_hash", .vStr tx.transaction_hash),
                      ("status", .vStr tx.status), ("quote", quoteDict q)]
                    let nextEdge := (outgoingEdges wf.edges nid).find?
                      (fun ed2 => ed2.label.getD "default" == "default")
                    let e2 := { e with
                      transactionHash := some tx.transaction_hash
                      executionData := setNodeOutput e.executionData nid nodeOut }
                    (.ok (advanceToNode e2 (nextEdge.map (fun ed2 => ed2.target))), calls)

/-- Outcome of the traversal loop.  `outOfFuel` marks a run still going
after the given number of iterations (the source loop has no iteration
bound, so a cyclic executed path spins forever). -/
inductive RunResult where
  | done (e : ExecutionRec)
  | failedRun (e : ExecutionRec) (err : EngError)
  | outOfFuel (e : ExecutionRec)

/-- The `while` loop of `execute_for_workflow`, fuelled.  Besides the
result it returns the list of visited node ids and the audit trace of
provider execute calls.  An exception from a step runs
`fail_execution(error={"message": str(e)})` and stops the loop; loop
exhaustion runs `complete_execution` on
`execution_data.get('nodes', {})`. -/
def runLoop (wf : PWorkflow) (env : Env) :
    Nat → ExecutionRec → RunResult × List String × List (String × String)
  | 0, e => (.outOfFuel e, [], [])
  | fuel + 1, e =>
      match e.currentNodeId with
      | none =>
          let actionResults := match e.executionData.lookup "nodes" with
            | some v => v
            | none => .vDict []
          (.done (completeExecution e actionResults), [], [])
      | some nid =>
          match stepNode wf env e nid with
          | (.error er, calls) =>
              (.failedRun (failExecution e (.vDict [("message", .vStr (engErrStr er))])) er,
                [nid], calls)
          | (.ok e2, calls) =>
              let r := runLoop wf env fuel e2
              (r.1, nid :: r.2.1, calls ++ r.2.2)

/-- What `execute_for_workflow`'s caller observes.  `raised` is the
exception propagating out of the function: the source wraps the whole
loop in `except Exception` with no `raise`, so it is always `none`. -/
structure ExecOutcome where
  execution : ExecutionRec
  raised : Option EngError
  visited : List String
  calls : List (String × String)

/-- `execute_for_workflow` for a loaded workflow: resolve the start node
(failing the execution when there is none), run the loop, and swallow any
loop exception after recording it on the execution. -/
def executeForWorkflow (wf : PWorkflow) (env : Env) (fuel : Nat) : ExecOutcome :=
  match startNodeId wf with
  | none =>
      { execution := failExecution blankExec (.vDict [("message", .vStr "Workflow has no start node.")]),
        raised := none, visited := [], calls := [] }
  | some s =>
      match runLoop wf env fuel (startExecution s) with
      | (.done e, vs, cs) => { execution := e, raised := none, visited := vs, calls := cs }
      | (.failedRun e _, vs, cs) => { execution := e, raised := none, visited := vs, calls := cs }
      | (.outOfFuel e, vs, cs) => { execution := e, raised := none, visited := vs, calls := cs }

/-! ## Grant resolver (`app/services/security/signing_service.py`) -/

/-- A `SessionKeyGrant` row as read by the resolver. `expiresAt` and the
query's `now` are UTC timestamps embedded as `Int` (the comparison is
order-isomorphic). -/
structure PGrant where
  id : Nat
  userId : String
  expiresAt : Int
  permissions : List (String × Val)

/-- `chars hay` starts with `chars needle`. -/
def charsStart : List Char → List Char → Bool
  | _, [] => true
  | [], _ :: _ => false
  | a :: as, b :: bs => a == b && charsStart as bs

/-- Substring containment on character lists. -/
def charsContain : List Char → List Char → Bool
  | [], needle => needle.isEmpty
  | c :: t, needle => charsStart (c :: t) needle || charsContain t needle

/-- SQL `column LIKE '%' || needle || '%'`, the semantics of
`.astext.contains(needle)` (a plain substring test, the needle contains
no wildcard characters in the claims). -/
def textContains (hay needle : String) : Bool :=
  charsContain hay.toList needle.toList

mutual

/-- The text rendering of a JSONB value produced by Postgres `->>`
(`permissions['allowed_targets'].astext`); strings that need escaping do
not occur in the claims. -/
def jsonText : Val → String
  | .vNone => "null"
  | .vStr s => "\x22" ++ s ++ "\x22"
  | .vNum n => toString n
  | .vBool b => if b then "true" else "false"
  | .vArr xs => "[" ++ String.intercalate ", " (jsonTextList xs) ++ "]"
  | .vDict d => "\x7b" ++ String.intercalate ", " (jsonTextItems d) ++ "\x7d"

def jsonTextList : List Val → List String
  | [] => []
  | v :: vs => jsonText v :: jsonTextList vs

def jsonTextItems : List (String × Val) → List String
  | [] => []
  | (k, v) :: kvs => ("\x22" ++ k ++ "\x22: " ++ jsonText v) :: jsonTextItems kvs

end

/-- The numeric coercion used by `value > max_per_tx`: numbers compare,
booleans coerce; any other right-hand side raises `TypeError` (which
`_check_spend_limits` catches and turns into a denial). -/
def spendLimitNumber : Val → Option Int
  | .vNum n => some n
  | .vBool b => some (if b then 1 else 0)
  | _ => none

/-- `_check_spend_limits(grant, value)`: no `spend_limits` key permits;
a declared `max_spend_per_tx` denies values above it; a missing or `None`
ceiling permits; a non-numeric ceiling raises `TypeError`, caught and
denied; a non-dict `spend_limits` value raises `AttributeError` on
`.get`, which is not in the caught tuple and escapes. -/
def checkSpendLimits (g : PGrant) (value : Int) : Except EngError Bool :=
  match g.permissions.lookup "spend_limits" with
  | none => .ok true
  | some (.vDict sl) =>
      match dictGet sl "max_spend_per_tx" with
      | .vNone => .ok true
      | mv =>
          match spendLimitNumber mv with
          | some m => if value > m then .ok false else .ok true
          | none => .ok false
  | some _ => .error .attributeError

/-- The SQL filter of `find_valid_grant_for_action`: same user, unexpired
(`expires_at > now`), and the *text* of `permissions['allowed_targets']`
contains the target as a substring. -/
def grantCandidate (now : Int) (userId target : String) (g : PGrant) : Bool :=
  g.userId == userId && now < g.expiresAt &&
    (match g.permissions.lookup "allowed_targets" with
     | none => false
     | some .vNone => false
     | some v => textContains (jsonText v) target)

/-- The candidate scan of `find_valid_grant_for_action`: first candidate
whose spend-limit check passes. -/
def scanGrants (value : Int) : List PGrant → Except EngError (Option PGrant)
  | [] => .ok none
  | g :: gs =>
      match checkSpendLimits g value with
      | .error e => .error e
      | .ok true => .ok (some g)
      | .ok false => scanGrants value gs

/-- `find_valid_grant_for_action(db, user_id, target_contract, value)`
over the user's stored grants at time `now`. -/
def findValidGrantForAction (grants : List PGrant) (now : Int) (userId target : String)
    (value : Int) : Except EngError (Option PGrant) :=
  scanGrants value (grants.filter (grantCandidate now userId target))

/-- Spec-side predicate for C4: the grant *declares the target among its
allowed targets*, i.e. the target is an element of the
`allowed_targets` list. -/
def declaresTarget (g : PGrant) (target : String) : Bool :=
  match g.permissions.lookup "allowed_targets" with
  | some (.vArr xs) => xs.any (fun v => match v with | .vStr s => s == target | _ => false)
  | _ => false

/-! ## Polling-event trigger evaluator
(`app/services/trigger_checker_service.py`, `_check_polling_event`) -/

/-- The trigger-relevant slice of a workflow: the user-declared
`trigger_config` and the poller-cursor storage the checkers read and the
evaluator conditionally writes (`workflow.state`). -/
structure TriggerWorkflow where
  triggerConfig : List (String × Val)
  state : Option Val

/-- The source-specific checkers available to `_check_polling_event`
(`rss`, optional `twitter`, `evm`), each returning
`(is_triggered, new_state)`. -/
structure PollCheckers where
  rss : TriggerWorkflow → Bool × Val
  twitter : Option (TriggerWorkflow → Bool × Val)
  evm : TriggerWorkflow → Bool × Val

/-- The `checker_map.get(source)` dispatch of `_check_polling_event`
(`None` also for a configured-but-uninitialized twitter checker). -/
def pollChecker (cks : PollCheckers) (wf : TriggerWorkflow) :
    Option (TriggerWorkflow → Bool × Val) :=
  match dictGet wf.triggerConfig "source" with
  | .vStr s =>
      if s = "rss" then some cks.rss
      else if s = "twitter" then cks.twitter
      else if s = "evm" then some cks.evm
      else none
  | _ => none

/-- `_check_polling_event`: dispatch on `trigger_config['source']`; when
no checker matches, return `False`.  The returned `new_state` is written
to `workflow.state` *only when* `is_triggered` is true; otherwise the
workflow is left untouched. -/
def checkPollingEvent (cks : PollCheckers) (wf : TriggerWorkflow) : Bool × TriggerWorkflow :=
  match pollChecker cks wf with
  | none => (false, wf)
  | some f =>
      let fired := (f wf).1
      if fired then (true, { wf with state := some (f wf).2 })
      else (false, wf)

/-- Result of `feedparser.parse`: a parse failure (`feed.bozo`) or the
entry timestamps (`_get_entry_timestamp` per entry, embedded as `Int`). -/
inductive FeedResult where
  | parseError
  | entries (ts : List Int)

/-- `state = workflow.state or {}` of the RSS checker; the stored state is
engine-written and, when present, a dict. -/
def rssStoredState (wf : TriggerWorkflow) : List (String × Val) :=
  match wf.state with
  | some (.vDict d) => d
  | _ => []

/-- `RssCheckerService.check`, with the feed fetch supplied as a
parameter.  A new entry strictly newer than `last_entry_timestamp`
(default 0) fires and returns the advanced cursor; every other branch
returns the prior state unchanged. -/
def rssCheck (feed : FeedResult) (wf : TriggerWorkflow) : Bool × Val :=
  let stateD : List (String × Val) := rssStoredState wf
  let feedUrl :=
    match wf.triggerConfig.lookup "params" with
    | some (.vDict p) => dictGet p "feed_url"
    | _ => .vNone
  if !(pyTruthy feedUrl) then (false, .vDict stateD)
  else
    match feed with
    | .parseError => (false, .vDict stateD)
    | .entries [] => (false, .vDict stateD)
    | .entries (t :: ts) =>
        let latest := ts.foldl max t
        let last : Int :=
          match dictGet stateD "last_entry_timestamp" with
          | .vNum n => n
          | _ => 0
        if latest > last then (true, .vDict [("last_entry_timestamp", .vNum latest)])
        else (false, .vDict stateD)

/-! ## Provider manager and circuit breaker
(`app/services/blockchain/manager.py`)

Modelled from the spec: the breaker internals (`pybreaker.CircuitBreaker`
with `fail_max`, `exclude=[(NotImplementedError,)]`) are an external
dependency, not repository code.  Per spec §4.3 the breaker counts
consecutive primary failures, opens at the configured threshold, and
excluded (`NotImplementedError`) failures do not count toward opening and
surface directly.  The cooldown / half-open probing is real-time behavior
outside the model; the "next call" of the claims happens before any
cooldown elapses. -/

/-- `CIRCUIT_BREAKER_FAILURE_THRESHOLD` (`app/core/config.py`). -/
def CIRCUIT_BREAKER_FAILURE_THRESHOLD : Nat := 5

inductive BreakerState where
  | closed (failCount : Nat)
  | opened
deriving DecidableEq

/-- Behavior of one primary-adapter invocation. -/
inductive PrimResult (α : Type) where
  | ok (a : α)
  | fail (msg : String)
  | notImpl (msg : String)

/-- What one `breaker.call_async(func, ...)` yields. -/
inductive BreakerOutcome (α : Type) where
  | ok (a : α)
  | raisedFail (msg : String)
  | raisedNotImpl (msg : String)
  | circuitOpenError

/-- Modelled from the spec: one breaker-guarded call.  Open state short
circuits without invoking the primary; a success resets the failure
count; an excluded `NotImplementedError` leaves count and state unchanged
and re-raises; a counted failure increments the count and opens the
breaker at `failMax`.  The third component records whether the primary
adapter was invoked. -/
def breakerCall {α : Type} (failMax : Nat) (st : BreakerState) (prim : PrimResult α) :
    BreakerState × BreakerOutcome α × Bool :=
  match st with
  | .opened => (.opened, .circuitOpenError, false)
  | .closed n =>
      match prim with
      | .ok a => (.closed 0, .ok a, true)
      | .notImpl m => (.closed n, .raisedNotImpl m, true)
      | .fail m =>
          if n + 1 ≥ failMax then (.opened, .raisedFail m, true)
          else (.closed (n + 1), .raisedFail m, true)

/-- Errors `_execute_with_breaker` propagates to its caller. -/
inductive MgrError where
  | primary (msg : String)
  | notImplemented (msg : String)
  | totalFailure (primaryMsg fallbackMsg : String)
deriving DecidableEq

/-- Result of one manager call: new breaker state, outcome, whether the
primary adapter was invoked, whether the fallback adapter was invoked. -/
structure MgrCall (α : Type) where
  state : BreakerState
  outcome : Except MgrError α
  primaryInvoked : Bool
  fallbackInvoked : Bool

/-- `_execute_with_breaker`: route the call through the breaker; only a
`CircuitBreakerError` (open breaker) triggers the fallback; any other
exception — including `NotImplementedError` — re-raises directly; if the
fallback also fails, raise the composite `TOTAL_SERVICE_FAILURE`. -/
def executeWithBreaker {α : Type} (failMax : Nat) (st : BreakerState)
    (prim : PrimResult α) (fallback : Except String α) : MgrCall α :=
  match breakerCall failMax st prim with
  | (st2, .ok a, pInv) => ⟨st2, .ok a, pInv, false⟩
  | (st2, .raisedFail m, pInv) => ⟨st2, .error (.primary m), pInv, false⟩
  | (st2, .raisedNotImpl m, pInv) => ⟨st2, .error (.notImplemented m), pInv, false⟩
  | (st2, .circuitOpenError, pInv) =>
      match fallback with
      | .ok a => ⟨st2, .ok a, pInv, true⟩
      | .error fm => ⟨st2, .error (.totalFailure "CircuitBreakerError" fm), pInv, true⟩

/-- The breaker state after `n` consecutive counted failures of the
primary, starting from a freshly closed breaker. -/
def afterConsecutiveFailures (failMax : Nat) (msg : String) : Nat → BreakerState
  | 0 => .closed 0
  | n + 1 =>
      (breakerCall (α := Unit) failMax (afterConsecutiveFailures failMax msg n) (.fail msg)).1

/-! ## Concrete fixtures used by the claim theorems -/

/-- The `SigningException` message of `_sign_and_execute` when the grant
resolver returns none. -/
def grantDenialMsg (userId : String) : String :=
  "No valid session key grant found for this action for user " ++ userId

def isOutOfFuel : RunResult → Bool
  | .outOfFuel _ => true
  | _ => false

/-- An environment whose price feed reports 15, whose swap provider
returns a fixed quote with an empty route, and whose grant resolver
finds no grant. -/
def fixedEnv : Env where
  onchain := fun _ _ => .ok (.vNum 15)
  swapQuote := fun _ _ _ _ _ _ => .ok { quote_id := "q1", from_amount := "100", route := [] }
  bridgeQuote := fun _ _ _ _ _ => .error (.providerError "unavailable")
  stakeQuote := fun _ _ _ _ _ => .error (.providerError "unavailable")
  lendQuote := fun _ _ _ _ _ => .error (.providerError "unavailable")
  findGrant := fun _ _ => none
  signMessage := fun _ m => m
  execSwap := fun _ _ _ => .ok { transaction_hash := "0xabc", status := "confirmed" }
  execBridge := fun _ _ _ => .ok { transaction_hash := "0xabc", status := "confirmed" }
  execStake := fun _ _ _ => .ok { transaction_hash := "0xabc", status := "confirmed" }
  execSupply := fun _ _ _ => .ok { transaction_hash := "0xabc", status := "confirmed" }

/-- `fixedEnv` with a grant resolver that always finds a grant (used to
exercise the execute-call trace of a granted action). -/
def grantEnv : Env :=
  { fixedEnv with findGrant := fun _ _ => some ⟨7, "0xKEY"⟩ }

/-- A well-formed swap-node config (no placeholders). -/
def swapCfg : List (String × Val) :=
  [("from_asset", .vStr "0xA"), ("to_asset", .vStr "0xB"), ("amount", .vNum 100),
   ("from_chain", .vStr "c1"), ("to_chain", .vStr "c2")]

/-- A single-swap-node workflow. -/
def swapWf (nid : String) : PWorkflow :=
  { nodes := [⟨nid, "swap", swapCfg⟩], edges := [], userId := "u1", scaAddress := "0xSCA" }

/-- A workflow whose only node is a condition node with an empty config
(its execution raises the missing-fields `ValueError`). -/
def wfCondBad : PWorkflow :=
  { nodes := [⟨"c1", "condition", []⟩], edges := [], userId := "u1", scaAddress := "0xSCA" }

/-- A condition node that loops back to itself on `on_true` (a cyclic
executed path: against `fixedEnv` the condition 15 > 10 holds forever). -/
def wfLoop : PWorkflow :=
  { nodes := [⟨"n1", "condition",
      [("source", .vStr "price_feed:X"), ("operator", .vStr ">"),
       ("value", .vNum 10), ("chain", .vStr "c")]⟩],
    edges := [⟨"n1", "n1", some "on_true"⟩], userId := "u1", scaAddress := "0xSCA" }

/-- The engine state reached after one iteration of `wfLoop` (and kept by
every following iteration). -/
def loopFix : ExecutionRec :=
  { status := .inProgress, currentNodeId := some "n1",
    executionData := [("nodes", .vDict [("n1", .vDict [("output", .vDict
      [("result", .vBool true), ("message", .vStr "Condition evaluated to True")])])])],
    result := none, transactionHash := none }

/-- A polling workflow with an rss source and a stored cursor at 5. -/
def pollWf : TriggerWorkflow :=
  { triggerConfig := [("source", .vStr "rss")],
    state := some (.vDict [("last_entry_timestamp", .vNum 5)]) }

/-- Checkers whose rss checker reports "not fired" while returning an
advanced cursor (the shape the spec attributes to pollers whose cursors
move on every check). -/
def staleCheckers : PollCheckers :=
  { rss := fun _ => (false, .vDict [("last_entry_timestamp", .vNum 9)]),
    twitter := none,
    evm := fun _ => (false, .vNone) }

/-- An unexpired grant allowing target `0xABCD` with no spend limits. -/
def grantCE : PGrant :=
  { id := 1, userId := "u1", expiresAt := 100,
    permissions := [("allowed_targets", .vArr [.vStr "0xABCD"])] }

/-- An unexpired grant allowing target `0xT` with `max_spend_per_tx` 10. -/
def grantSmall : PGrant :=
  { id := 2, userId := "u1", expiresAt := 100,
    permissions := [("allowed_targets", .vArr [.vStr "0xT"]),
      ("spend_limits", .vDict [("max_spend_per_tx", .vNum 10)])] }

/-- Three nodes of which two (`n2`, `n3`) are never edge targets: the
source picks the first untargeted node, not the head of the list. -/
def wfMultiEntry : PWorkflow :=
  { nodes := [⟨"n1", "condition", []⟩, ⟨"n2", "condition", []⟩, ⟨"n3", "condition", []⟩],
    edges := [⟨"n2", "n1", some "on_true"⟩], userId := "u1", scaAddress := "0xSCA" }

/-! ## Claim theorems -/

/-- C5 counterexample: the string `\x7b\x7ba\x7d\x7dxyz` is not entirely a
single placeholder, yet `_resolve_inputs` replaces it (`re.match` anchors
at the start only), so it does not pass through unchanged. -/
theorem claim5_counterexample :
    resolveInputs [("k", .vStr "\x7b\x7ba\x7d\x7dxyz")] [("a", .vNum 5)] = .ok [("k", .vNum 5)] ∧
    isEntirePlaceholder "\x7b\x7ba\x7d\x7dxyz" = false ∧
    Val.vNum 5 ≠ Val.vStr "\x7b\x7ba\x7d\x7dxyz" :=
  ⟨rfl, rfl, fun h => Val.noConfusion h⟩

/-- C6: evaluating `_resolve_inputs` at the spec's concrete scenario 3 —
placeholder `\x7b\x7bnonexistent_node.output.value\x7d\x7d` against empty
execution data — raises the `AttributeError` of `None.get` (not in the
caught exception tuple), whose message names neither the unresolved path
nor the raw placeholder text, contradicting the claimed naming resolution
error.  The two `raise ValueError` sites of the source show the naming
error is the intent; the missing `AttributeError` in the `except` tuple
is the slip. -/
theorem claim6_resolution_error_names_nothing :
    resolveInputs [("k", .vStr "\x7b\x7bnonexistent_node.output.value\x7d\x7d")] [] =
      .error .attributeError ∧
    textContains (engErrStr (toEngErr [] .attributeError)) "nonexistent_node.output.value" = false ∧
    textContains (engErrStr (toEngErr [] .attributeError))
      "\x7b\x7bnonexistent_node.output.value\x7d\x7d" = false :=
  ⟨rfl, rfl, rfl⟩

/-- C10 counterexample: in `wfMultiEntry` two nodes qualify as entry
(never a target), and `start_node_id` returns the first qualifying node
`n2`, not the claimed fallback `nodes[0] = n1`. -/
theorem claim10_counterexample :
    startNodeId wfMultiEntry = some "n2" ∧
    (wfMultiEntry.nodes.filter (fun n => !(isTargetOf wfMultiEntry.edges n.id))).length = 2 ∧
    (wfMultiEntry.nodes.head?.map (fun n => n.id)) = some "n1" ∧
    ¬ (some "n2" = (wfMultiEntry.nodes.head?.map (fun n => n.id))) :=
  ⟨rfl, rfl, rfl, by decide⟩

/-- C8: a `NotImplementedError`-class failure of the primary adapter
leaves the breaker's failure count and state unchanged (`exclude`d from
counting) and surfaces directly to the caller without invoking the
fallback. -/
theorem claim8_not_implemented_excluded {α : Type} (failMax n : Nat) (m : String)
    (fb : Except String α) :
    executeWithBreaker failMax (.closed n) (.notImpl m) fb =
      ⟨.closed n, .error (.notImplemented m), true, false⟩ := rfl

/-- C9 counterexample: on the well-formed single-node cyclic workflow
`wfLoop` (node count 1) the loop is still running after 5 iterations, so
`execute` does not always perform at most node-count iterations nor
terminate. -/
theorem claim9_counterexample :
    runLoop wfLoop fixedEnv 5 (startExecution "n1") =
      (.outOfFuel loopFix, ["n1", "n1", "n1", "n1", "n1"], []) ∧
    wfLoop.nodes.length = 1 :=
  ⟨rfl, rfl⟩

/-- C4 counterexample: `find_valid_grant_for_action` returns `grantCE`
for target `0xAB` although `0xAB` is not among its allowed targets — the
SQL filter is a substring test on the JSON text of `allowed_targets`
(which lists only `0xABCD`). -/
theorem claim4_counterexample :
    findValidGrantForAction [grantCE] 0 "u1" "0xAB" 1 = .ok (some grantCE) ∧
    declaresTarget grantCE "0xAB" = false :=
  ⟨rfl, rfl⟩

/-- C3 counterexample: a polling checker returns `fired = false`
together with an advanced cursor, and `_check_polling_event` leaves the
workflow's stored state unchanged — the returned updated state is not
persisted when `fired` is false. -/
theorem claim3_counterexample :
    (checkPollingEvent staleCheckers pollWf).1 = false ∧
    (staleCheckers.rss pollWf).2 = .vDict [("last_entry_timestamp", .vNum 9)] ∧
    (checkPollingEvent staleCheckers pollWf).2 = pollWf ∧
    pollWf.state = some (.vDict [("last_entry_timestamp", .vNum 5)]) ∧
    ¬ ((checkPollingEvent staleCheckers pollWf).2.state = some ((staleCheckers.rss pollWf).2)) :=
  ⟨rfl, rfl, rfl, rfl, by intro h; simp [checkPollingEvent, pollChecker, staleCheckers, pollWf, dictGet] at h⟩

-- helper: breaker state while below threshold
lemma afterFails_closed (N : Nat) (msg : String) :
    ∀ k, k < N → afterConsecutiveFailures N msg k = .closed k := by
  intro k
  induction k with
  | zero => intro _; rfl
  | succ k ih =>
      intro hk
      have hk' : k < N := Nat.lt_of_succ_lt hk
      have hred : breakerCall (α := Unit) N (.closed k) (.fail msg) =
          ((if k + 1 ≥ N then BreakerState.opened else .closed (k + 1)), .raisedFail msg, true) := by
        simp only [breakerCall]
        split <;> rfl
      unfold afterConsecutiveFailures
      rw [ih hk', hred, if_neg (by omega)]

/-- C7: after `N` consecutive counted failures of the primary adapter
(`N` = configured threshold, positive) the breaker is open, and the next
manager call is routed to the fallback without invoking the primary. -/
theorem claim7_breaker_opens_then_fallback {α : Type} (N : Nat) (hN : 0 < N) (msg : String)
    (prim : PrimResult α) (fb : Except String α) :
    afterConsecutiveFailures N msg N = .opened ∧
    (executeWithBreaker N .opened prim fb).primaryInvoked = false ∧
    (executeWithBreaker N .opened prim fb).fallbackInvoked = true := by
  refine ⟨?_, ?_, ?_⟩
  · obtain ⟨k, rfl⟩ : ∃ k, N = k + 1 := ⟨N - 1, by omega⟩
    have hred : breakerCall (α := Unit) (k + 1) (.closed k) (.fail msg) =
        ((if k + 1 ≥ k + 1 then BreakerState.opened else .closed (k + 1)), .raisedFail msg, true) := by
      simp only [breakerCall]
      split <;> rfl
    unfold afterConsecutiveFailures
    rw [afterFails_closed (k + 1) msg k (by omega), hred, if_pos (by omega)]
  · cases prim <;> cases fb <;> rfl
  · cases prim <;> cases fb <;> rfl

theorem claim7_witness :
    afterConsecutiveFailures CIRCUIT_BREAKER_FAILURE_THRESHOLD "boom"
      CIRCUIT_BREAKER_FAILURE_THRESHOLD = .opened ∧
    (executeWithBreaker (α := Unit) CIRCUIT_BREAKER_FAILURE_THRESHOLD .opened (.ok ()) (.ok ())).primaryInvoked = false ∧
    (executeWithBreaker (α := Unit) CIRCUIT_BREAKER_FAILURE_THRESHOLD .opened (.ok ()) (.ok ())).fallbackInvoked = true :=
  claim7_breaker_opens_then_fallback CIRCUIT_BREAKER_FAILURE_THRESHOLD (by decide) "boom"
    (.ok ()) (.ok ())

-- helper: rssCheck either returns (false, prior state) or fires
lemma rssCheck_false_or_fired (feed : FeedResult) (w2 : TriggerWorkflow) :
    rssCheck feed w2 = (false, .vDict (rssStoredState w2)) ∨ (rssCheck feed w2).1 = true := by
  unfold rssCheck
  dsimp only
  split
  · exact Or.inl rfl
  · cases feed with
    | parseError => exact Or.inl rfl
    | entries ts =>
        cases ts with
        | nil => exact Or.inl rfl
        | cons t rest =>
            dsimp only
            split
            · exact Or.inr rfl
            · exact Or.inl rfl

/-- C3 amended: `_check_polling_event` persists the checker's returned
state only when `fired` is true; when `fired` is false the workflow is
returned unchanged.  (For the bundled RSS checker nothing is lost: it
returns the prior stored state whenever it does not fire.) -/
theorem claim3_amended (cks : PollCheckers) (wf : TriggerWorkflow) :
    ((checkPollingEvent cks wf).1 = false → (checkPollingEvent cks wf).2 = wf) ∧
    (∀ f, pollChecker cks wf = some f → (f wf).1 = true →
      (checkPollingEvent cks wf).2 = { wf with state := some (f wf).2 }) ∧
    (∀ feed w2, (rssCheck feed w2).1 = false →
      (rssCheck feed w2).2 = .vDict (rssStoredState w2)) := by
  refine ⟨?_, ?_, ?_⟩
  · unfold checkPollingEvent
    cases h : pollChecker cks wf with
    | none => intro _; rfl
    | some f =>
        dsimp only
        by_cases hf : (f wf).1
        · rw [if_pos hf]; intro h2; cases h2
        · rw [if_neg hf]; intro _; rfl
  · intro f hf hfired
    unfold checkPollingEvent
    rw [hf]
    dsimp only
    rw [if_pos hfired]
  · intro feed w2 hfalse
    rcases rssCheck_false_or_fired feed w2 with h | h
    · rw [h]
    · rw [hfalse] at h; cases h

theorem claim3_witness :
    (checkPollingEvent staleCheckers pollWf).2 = pollWf ∧
    (rssCheck (.entries [3]) pollWf).2 = .vDict (rssStoredState pollWf) :=
  ⟨(claim3_amended staleCheckers pollWf).1 rfl,
   (claim3_amended staleCheckers pollWf).2.2 (.entries [3]) pollWf rfl⟩

-- helpers for the grant scan
lemma scanGrants_ok_some (value : Int) :
    ∀ (l : List PGrant) (g : PGrant), scanGrants value l = .ok (some g) →
      g ∈ l ∧ checkSpendLimits g value = .ok true := by
  intro l
  induction l with
  | nil => intro g h; cases h
  | cons a t ih =>
      intro g h
      unfold scanGrants at h
      cases hc : checkSpendLimits a value with
      | error e => rw [hc] at h; cases h
      | ok b =>
          rw [hc] at h
          cases b
          · dsimp only at h
            obtain ⟨hm, hs⟩ := ih g h
            exact ⟨List.mem_cons_of_mem _ hm, hs⟩
          · dsimp only at h
            injection h with h1
            injection h1 with h2
            subst h2
            exact ⟨List.mem_cons_self _ _, hc⟩

lemma scanGrants_all_false (value : Int) :
    ∀ (l : List PGrant), (∀ g ∈ l, checkSpendLimits g value = .ok false) →
      scanGrants value l = .ok none := by
  intro l
  induction l with
  | nil => intro _; rfl
  | cons a t ih =>
      intro hall
      unfold scanGrants
      rw [hall a (List.mem_cons_self _ _)]
      exact ih (fun g hg => hall g (List.mem_cons_of_mem _ hg))

/-- C4 amended: a returned grant is one of the user's grants, unexpired,
whose `allowed_targets` *JSON text contains the target as a substring*
(a superset of exact membership), and whose spend-limit check passes;
if every such candidate fails the spend check the result is none.  The
spend check passes iff no per-transaction ceiling is declared or the
value does not exceed it. -/
theorem claim4_amended (grants : List PGrant) (now : Int) (userId target : String)
    (value : Int) :
    (∀ g, findValidGrantForAction grants now userId target value = .ok (some g) →
      g ∈ grants ∧ g.userId = userId ∧ now < g.expiresAt ∧
      (∃ v, g.permissions.lookup "allowed_targets" = some v ∧
        textContains (jsonText v) target = true) ∧
      checkSpendLimits g value = .ok true) ∧
    ((∀ g ∈ grants, grantCandidate now userId target g = true →
        checkSpendLimits g value = .ok false) →
      findValidGrantForAction grants now userId target value = .ok none) ∧
    (∀ g : PGrant, g.permissions.lookup "spend_limits" = none →
      checkSpendLimits g value = .ok true) ∧
    (∀ (g : PGrant) (sl : List (String × Val)) (m : Int),
      g.permissions.lookup "spend_limits" = some (.vDict sl) →
      dictGet sl "max_spend_per_tx" = .vNum m →
      (checkSpendLimits g value = .ok true ↔ value ≤ m)) := by
  refine ⟨?_, ?_, ?_, ?_⟩
  · intro g h
    unfold findValidGrantForAction at h
    obtain ⟨hm, hs⟩ := scanGrants_ok_some value _ g h
    obtain ⟨hg, hcand⟩ := List.mem_filter.mp hm
    unfold grantCandidate at hcand
    simp only [Bool.and_eq_true, beq_iff_eq, decide_eq_true_eq] at hcand
    obtain ⟨⟨hu, he⟩, ht⟩ := hcand
    refine ⟨hg, hu, he, ?_, hs⟩
    cases hl : g.permissions.lookup "allowed_targets" with
    | none => rw [hl] at ht; cases ht
    | some v =>
        rw [hl] at ht
        cases v with
        | vNone => cases ht
        | vStr s => exact ⟨_, rfl, ht⟩
        | vNum n => exact ⟨_, rfl, ht⟩
        | vBool b => exact ⟨_, rfl, ht⟩
        | vArr xs => exact ⟨_, rfl, ht⟩
        | vDict d => exact ⟨_, rfl, ht⟩
  · intro hall
    unfold findValidGrantForAction
    refine scanGrants_all_false value _ (fun g hg => ?_)
    obtain ⟨hmem, hcand⟩ := List.mem_filter.mp hg
    exact hall g hmem hcand
  · intro g hnone
    unfold checkSpendLimits
    rw [hnone]
  · intro g sl m hsl hmax
    unfold checkSpendLimits
    rw [hsl]
    dsimp only
    rw [hmax]
    dsimp only [spendLimitNumber]
    by_cases hv : value > m
    · rw [if_pos hv]
      constructor
      · intro h2; cases h2
      · intro h2; omega
    · rw [if_neg hv]
      constructor
      · intro _; omega
      · intro _; rfl

theorem claim4_witness :
    findValidGrantForAction [grantSmall] 0 "u1" "0xT" 50 = .ok none ∧
    (checkSpendLimits grantSmall 50 = .ok true ↔ (50 : Int) ≤ 10) :=
  ⟨(claim4_amended [grantSmall] 0 "u1" "0xT" 50).2.1
      (fun g hg _ => by
        rw [List.mem_singleton.mp hg]
        rfl),
   (claim4_amended [grantSmall] 0 "u1" "0xT" 50).2.2.2 grantSmall
      [("max_spend_per_tx", .vNum 10)] 10 rfl rfl⟩

-- helper: find? returns the first satisfying element
lemma find?_first {α : Type} (p : α → Bool) :
    ∀ (l : List α) (a : α), l.find? p = some a →
      p a = true ∧ ∃ l1 l2, l = l1 ++ a :: l2 ∧ ∀ x ∈ l1, p x = false := by
  intro l
  induction l with
  | nil => intro a h; cases h
  | cons b t ih =>
      intro a h
      cases hb : p b with
      | false =>
          rw [List.find?_cons_of_neg _ (by simp [hb])] at h
          obtain ⟨hpa, l1, l2, heq, h1⟩ := ih a h
          refine ⟨hpa, b :: l1, l2, by rw [heq]; rfl, ?_⟩
          intro x hx
          rcases List.mem_cons.mp hx with rfl | hx2
          · exact hb
          · exact h1 x hx2
      | true =>
          rw [List.find?_cons_of_pos _ hb] at h
          injection h with h1
          subst h1
          exact ⟨hb, [], t, rfl, by simp⟩

/-- C10 amended: the entry node is the *first node in list order* that
is never the target of any edge; only when every node is targeted does
the first node of the list serve as the fallback. -/
theorem claim10_amended (w : PWorkflow) (n0 : PNode) (rest : List PNode)
    (hn : w.nodes = n0 :: rest) :
    ((∀ n ∈ w.nodes, isTargetOf w.edges n.id = true) → startNodeId w = some n0.id) ∧
    (∀ a, w.nodes.find? (fun n => !(isTargetOf w.edges n.id)) = some a →
      startNodeId w = some a.id ∧ isTargetOf w.edges a.id = false ∧
      ∃ l1 l2, w.nodes = l1 ++ a :: l2 ∧ ∀ x ∈ l1, isTargetOf w.edges x.id = true) := by
  constructor
  · intro hall
    have hfind : w.nodes.find? (fun n => !(isTargetOf w.edges n.id)) = none := by
      rw [List.find?_eq_none]
      intro x hx
      simp [hall x hx]
    unfold startNodeId
    rw [hn] at hfind ⊢
    rw [hfind]
  · intro a ha
    obtain ⟨hpa, l1, l2, heq, h1⟩ := find?_first _ w.nodes a ha
    have hstart : startNodeId w = some a.id := by
      unfold startNodeId
      rw [hn] at ha ⊢
      rw [ha]
    refine ⟨hstart, by simpa using hpa, l1, l2, heq, fun x hx => ?_⟩
    have := h1 x hx
    simpa using this

theorem claim10_witness :
    startNodeId wfMultiEntry = some "n2" ∧ isTargetOf wfMultiEntry.edges "n2" = false := by
  have h := (claim10_amended wfMultiEntry ⟨"n1", "condition", []⟩
      [⟨"n2", "condition", []⟩, ⟨"n3", "condition", []⟩] rfl).2
      ⟨"n2", "condition", []⟩ (by rfl)
  exact ⟨h.1, h.2.1⟩

-- helpers for the resolver characterization
lemma resolveValue_pass (ed : List (String × Val)) (v : Val)
    (h : ∀ s, v = .vStr s → matchPlaceholder s = none) : resolveValue ed v = .ok v := by
  cases v with
  | vStr s =>
      unfold resolveValue
      dsimp only
      rw [h s rfl]
  | vNone => rfl
  | vNum n => rfl
  | vBool b => rfl
  | vArr xs => rfl
  | vDict d => rfl

lemma resolveValue_placeholder (ed : List (String × Val)) (s body : String) (r : Val)
    (hm : matchPlaceholder s = some body)
    (h : resolveValue ed (.vStr s) = .ok r) :
    walkPath (.vDict ed) (pathKeys (stripChars body.toList)) = .ok r := by
  unfold resolveValue at h
  dsimp only at h
  rw [hm] at h
  dsimp only [String.toList] at h
  show walkPath (Val.vDict ed) (pathKeys (stripChars body.data)) = Except.ok r
  cases hw : walkPath (Val.vDict ed) (pathKeys (stripChars body.data)) with
  | error e => rw [hw] at h; cases h
  | ok rv =>
      rw [hw] at h
      cases rv with
      | vNone => cases h
      | vStr s2 => injection h with h1; subst h1; rfl
      | vNum n => injection h with h1; subst h1; rfl
      | vBool b => injection h with h1; subst h1; rfl
      | vArr xs => injection h with h1; subst h1; rfl
      | vDict d => injection h with h1; subst h1; rfl

/-- C5 amended: for every config entry, a non-string value or a string
that does not *begin* with a placeholder token passes through unchanged,
and a string beginning with a placeholder is replaced by the context
lookup of the parsed path (text after the closing braces is ignored). -/
theorem claim5_amended (config ctx out : List (String × Val))
    (h : resolveInputs config ctx = .ok out) :
    List.Forall₂ (fun (a b : String × Val) =>
      b.1 = a.1 ∧
      ((∀ s, a.2 = Val.vStr s → matchPlaceholder s = none) → b.2 = a.2) ∧
      (∀ s body, a.2 = Val.vStr s → matchPlaceholder s = some body →
        walkPath (.vDict ctx) (pathKeys (stripChars body.toList)) = .ok b.2)) config out := by
  induction config generalizing out with
  | nil =>
      injection h with h1
      subst h1
      exact List.Forall₂.nil
  | cons kv rest ih =>
      obtain ⟨k, v⟩ := kv
      unfold resolveInputs at h
      cases hr : resolveValue ctx v with
      | error e => rw [hr] at h; cases h
      | ok r =>
          rw [hr] at h
          dsimp only at h
          cases hrest : resolveInputs rest ctx with
          | error e => rw [hrest] at h; cases h
          | ok outRest =>
              rw [hrest] at h
              dsimp only at h
              injection h with h1
              subst h1
              refine List.Forall₂.cons ⟨rfl, ?_, ?_⟩ (ih outRest hrest)
              · intro hnone
                have h2 := (resolveValue_pass ctx v hnone).symm.trans hr
                injection h2 with h3
                exact h3.symm
              · intro s body hs hm
                subst hs
                exact resolveValue_placeholder ctx s body r hm hr

theorem claim5_witness :
    List.Forall₂ (fun (a b : String × Val) =>
      b.1 = a.1 ∧
      ((∀ s, a.2 = Val.vStr s → matchPlaceholder s = none) → b.2 = a.2) ∧
      (∀ s body, a.2 = Val.vStr s → matchPlaceholder s = some body →
        walkPath (.vDict ([] : List (String × Val))) (pathKeys (stripChars body.toList)) = .ok b.2))
      [("k", Val.vStr "hi"), ("j", Val.vNum 3)] [("k", Val.vStr "hi"), ("j", Val.vNum 3)] :=
  claim5_amended [("k", Val.vStr "hi"), ("j", Val.vNum 3)] []
    [("k", Val.vStr "hi"), ("j", Val.vNum 3)] rfl

/-- C2 counterexample: a failing run marks the execution failed and
records the message and failing node, but `execute_for_workflow` returns
normally (`raised = none`) — the `except` block has no `raise`, so the
exception is *not* re-raised to the caller. -/
theorem claim2_counterexample :
    (executeForWorkflow wfCondBad fixedEnv 5).execution.status = .failed ∧
    (executeForWorkflow wfCondBad fixedEnv 5).execution.result =
      some (.vDict [("error", .vStr (pyRepr (.vDict [("message",
        .vStr "Condition node config is missing required fields (source, operator, value, chain).")]))),
        ("failed_at_node", .vStr "c1")]) ∧
    (executeForWorkflow wfCondBad fixedEnv 5).raised = none :=
  ⟨rfl, rfl, rfl⟩

-- helper: shape of a failed loop result
lemma runLoop_failedRun_shape (wf : PWorkflow) (env : Env) :
    ∀ (fuel : Nat) (e0 e2 : ExecutionRec) (err : EngError) (vs : List String)
      (cs : List (String × String)),
      runLoop wf env fuel e0 = (.failedRun e2 err, vs, cs) →
      ∃ (epre : ExecutionRec) (nid : String),
        vs.getLast? = some nid ∧ epre.currentNodeId = some nid ∧
        e2 = failExecution epre (.vDict [("message", .vStr (engErrStr err))]) := by
  intro fuel
  induction fuel with
  | zero =>
      intro e0 e2 err vs cs h
      unfold runLoop at h
      injection h with h1 _
      cases h1
  | succ n ih =>
      intro e0 e2 err vs cs h
      unfold runLoop at h
      cases hc : e0.currentNodeId with
      | none =>
          rw [hc] at h
          dsimp only at h
          injection h with h1 _
          cases h1
      | some nid =>
          rw [hc] at h
          dsimp only at h
          rcases hs : stepNode wf env e0 nid with ⟨res, calls⟩
          rw [hs] at h
          cases res with
          | error er =>
              dsimp only at h
              injection h with h1 h2
              injection h2 with h2a h2b
              injection h1 with hE hErr
              subst hErr
              refine ⟨e0, nid, ?_, hc, hE.symm⟩
              rw [← h2a]
              rfl
          | ok e3 =>
              dsimp only at h
              rcases hr : runLoop wf env n e3 with ⟨r1, vs1, cs1⟩
              rw [hr] at h
              injection h with h1 h2
              injection h2 with h2a h2b
              dsimp only at h1 h2a h2b
              obtain ⟨epre, nid2, hlast, hcur, he⟩ := ih e3 e2 err vs1 cs1 (by rw [hr, h1])
              refine ⟨epre, nid2, ?_, hcur, he⟩
              rw [← h2a]
              cases vs1 with
              | nil => cases hlast
              | cons a t => rw [List.getLast?_cons_cons]; exact hlast

/-- C2 amended: when any step of the loop raises, the execution is
marked failed with the error message and the id of the node at which it
failed (the last visited node), the loop stops, and the exception is
swallowed: `execute_for_workflow` returns normally instead of
re-raising. -/
theorem claim2_amended (wf : PWorkflow) (env : Env) (fuel : Nat) (s : String)
    (e2 : ExecutionRec) (err : EngError) (vs : List String) (cs : List (String × String))
    (hs : startNodeId wf = some s)
    (hrun : runLoop wf env fuel (startExecution s) = (.failedRun e2 err, vs, cs)) :
    executeForWorkflow wf env fuel = { execution := e2, raised := none, visited := vs, calls := cs } ∧
    e2.status = .failed ∧
    ∃ nid, vs.getLast? = some nid ∧
      e2.result = some (.vDict [("error",
        .vStr (pyRepr (.vDict [("message", .vStr (engErrStr err))]))),
        ("failed_at_node", .vStr nid)]) := by
  obtain ⟨epre, nid, hlast, hcur, he⟩ :=
    runLoop_failedRun_shape wf env fuel (startExecution s) e2 err vs cs hrun
  refine ⟨?_, ?_, nid, hlast, ?_⟩
  · unfold executeForWorkflow
    rw [hs]
    dsimp only
    rw [hrun]
  · rw [he]; rfl
  · rw [he]
    unfold failExecution
    dsimp only
    rw [hcur]
    rfl

theorem claim2_witness :
    executeForWorkflow wfCondBad fixedEnv 1 =
      { execution := failExecution (startExecution "c1") (.vDict [("message",
          .vStr "Condition node config is missing required fields (source, operator, value, chain).")]),
        raised := none, visited := ["c1"], calls := [] } :=
  (claim2_amended wfCondBad fixedEnv 1 "c1"
    (failExecution (startExecution "c1") (.vDict [("message",
      .vStr "Condition node config is missing required fields (source, operator, value, chain).")]))
    (.valueError "Condition node config is missing required fields (source, operator, value, chain).")
    ["c1"] [] rfl rfl).1

-- helper: the self-loop step is a fixed point
lemma stepNode_loopFix : stepNode wfLoop fixedEnv loopFix "n1" = (.ok loopFix, []) := rfl

lemma stepNode_loopStart :
    stepNode wfLoop fixedEnv (startExecution "n1") "n1" = (.ok loopFix, []) := rfl

lemma runLoop_loopFix :
    ∀ n, runLoop wfLoop fixedEnv n loopFix = (.outOfFuel loopFix, List.replicate n "n1", []) := by
  intro n
  induction n with
  | zero => rfl
  | succ n ih =>
      have hc : loopFix.currentNodeId = some "n1" := rfl
      unfold runLoop
      rw [hc]
      dsimp only
      rw [stepNode_loopFix]
      dsimp only
      rw [ih]
      rfl

-- helper: an out-of-fuel run visits exactly `fuel` nodes
lemma runLoop_outOfFuel_len (wf : PWorkflow) (env : Env) :
    ∀ (fuel : Nat) (e0 e1 : ExecutionRec) (vs : List String) (cs : List (String × String)),
      runLoop wf env fuel e0 = (.outOfFuel e1, vs, cs) → vs.length = fuel := by
  intro fuel
  induction fuel with
  | zero =>
      intro e0 e1 vs cs h
      unfold runLoop at h
      injection h with h1 h2
      injection h2 with h2a _
      rw [← h2a]
      rfl
  | succ n ih =>
      intro e0 e1 vs cs h
      unfold runLoop at h
      cases hc : e0.currentNodeId with
      | none =>
          rw [hc] at h
          dsimp only at h
          injection h with h1 _
          cases h1
      | some nid =>
          rw [hc] at h
          dsimp only at h
          rcases hs : stepNode wf env e0 nid with ⟨res, calls⟩
          rw [hs] at h
          cases res with
          | error er =>
              dsimp only at h
              injection h with h1 _
              cases h1
          | ok e3 =>
              dsimp only at h
              rcases hr : runLoop wf env n e3 with ⟨r1, vs1, cs1⟩
              rw [hr] at h
              injection h with h1 h2
              injection h2 with h2a _
              dsimp only at h1 h2a
              rw [← h2a]
              simp [ih e3 e1 vs1 cs1 (by rw [hr, h1])]

-- helper: a successful step leaves the cursor on an existing node or none
lemma stepNode_ok_cursor (wf : PWorkflow) (env : Env) (e : ExecutionRec) (nid : String)
    (e2 : ExecutionRec) (cs : List (String × String))
    (hwf : ∀ ed ∈ wf.edges, ∃ n ∈ wf.nodes, n.id = ed.target)
    (h : stepNode wf env e nid = (.ok e2, cs)) :
    ∀ s, e2.currentNodeId = some s → ∃ n ∈ wf.nodes, n.id = s := by
  have hedge : ∀ (p : PEdge → Bool) (ed : PEdge),
      (outgoingEdges wf.edges nid).find? p = some ed → ed ∈ wf.edges := by
    intro p ed hf
    have := List.mem_of_find?_eq_some hf
    exact (List.mem_filter.mp this).1
  unfold stepNode at h
  cases hm : nodesMapGet wf.nodes nid with
  | none => rw [hm] at h; cases h
  | some node =>
      rw [hm] at h
      dsimp only at h
      cases hres : resolveInputs node.config e.executionData with
      | error re => rw [hres] at h; cases h
      | ok rcfg =>
          rw [hres] at h
          dsimp only at h
          by_cases hty : (node.type == "condition") = true
          · rw [if_pos hty] at h
            cases hcond : handleCondition env rcfg with
            | error er => rw [hcond] at h; cases h
            | ok b =>
                rw [hcond] at h
                dsimp only at h
                injection h with h1 _
                injection h1 with h1a
                intro s hcur
                rw [← h1a] at hcur
                unfold advanceToNode at hcur
                cases hf : (outgoingEdges wf.edges nid).find?
                    (fun ed2 => ed2.label == some (if b then "on_true" else "on_false")) with
                | none => rw [hf] at hcur; cases hcur
                | some ed =>
                    rw [hf] at hcur
                    dsimp only at hcur
                    injection hcur with hcur1
                    subst hcur1
                    exact hwf ed (hedge _ ed hf)
          · rw [if_neg hty] at h
            cases hq : getQuoteForAction env node.type rcfg wf.scaAddress with
            | error er => rw [hq] at h; cases h
            | ok tri =>
                rw [hq] at h
                dsimp only at h
                rcases tri with ⟨q, msg, target⟩
                dsimp only at h
                rcases hsx : signAndExecute env wf.userId wf.scaAddress node.type q msg target with
                  ⟨sres, calls2⟩
                rw [hsx] at h
                cases sres with
                | error er => dsimp only at h; cases h
                | ok tx =>
                    dsimp only at h
                    injection h with h1 _
                    injection h1 with h1a
                    intro s hcur
                    rw [← h1a] at hcur
                    unfold advanceToNode at hcur
                    cases hf : (outgoingEdges wf.edges nid).find?
                        (fun ed2 => ed2.label.getD "default" == "default") with
                    | none => rw [hf] at hcur; cases hcur
                    | some ed =>
                        rw [hf] at hcur
                        dsimp only at hcur
                        injection hcur with hcur1
                        subst hcur1
                        exact hwf ed (hedge _ ed hf)

-- helper: under a well-formed graph every visited node id names a node
lemma runLoop_visited_subset (wf : PWorkflow) (env : Env)
    (hwf : ∀ ed ∈ wf.edges, ∃ n ∈ wf.nodes, n.id = ed.target) :
    ∀ (fuel : Nat) (e0 : ExecutionRec),
      (∀ s, e0.currentNodeId = some s → ∃ n ∈ wf.nodes, n.id = s) →
      ∀ x ∈ (runLoop wf env fuel e0).2.1, ∃ n ∈ wf.nodes, n.id = x := by
  intro fuel
  induction fuel with
  | zero => intro e0 _ x hx; cases hx
  | succ n ih =>
      intro e0 hvalid x hx
      unfold runLoop at hx
      cases hc : e0.currentNodeId with
      | none => rw [hc] at hx; cases hx
      | some nid =>
          rw [hc] at hx
          dsimp only at hx
          rcases hs : stepNode wf env e0 nid with ⟨res, calls⟩
          rw [hs] at hx
          cases res with
          | error er =>
              dsimp only at hx
              rcases List.mem_singleton.mp hx with rfl
              exact hvalid x hc
          | ok e3 =>
              dsimp only at hx
              rcases List.mem_cons.mp hx with rfl | hx2
              · exact hvalid x hc
              · exact ih e3 (stepNode_ok_cursor wf env e0 nid e3 calls hwf hs) x hx2

-- helper: the chosen start node is a node of the graph
lemma startNodeId_some_valid (wf : PWorkflow) (s : String) (h : startNodeId wf = some s) :
    ∃ n ∈ wf.nodes, n.id = s := by
  unfold startNodeId at h
  cases hn : wf.nodes with
  | nil => rw [hn] at h; cases h
  | cons n0 rest =>
      rw [hn] at h
      dsimp only at h
      cases hf : (n0 :: rest).find? (fun n => !(isTargetOf wf.edges n.id)) with
      | none =>
          rw [hf] at h
          injection h with h1
          exact ⟨n0, List.mem_cons_self _ _, h1⟩
      | some a =>
          rw [hf] at h
          injection h with h1
          exact ⟨a, List.mem_of_find?_eq_some hf, h1⟩

/-- C9 amended: the node-execution loop of `execute_for_workflow` need
not terminate — on the cyclic executed path of `wfLoop` it runs forever —
but whenever the executed path of a well-formed graph is acyclic (no
node id visited twice), the loop finishes within node-count
iterations. -/
theorem claim9_amended :
    (∀ n, isOutOfFuel (runLoop wfLoop fixedEnv n (startExecution "n1")).1 = true) ∧
    (∀ (wf : PWorkflow) (env : Env) (s : String),
      (∀ ed ∈ wf.edges, ∃ n ∈ wf.nodes, n.id = ed.target) →
      startNodeId wf = some s →
      ((runLoop wf env (wf.nodes.length + 1) (startExecution s)).2.1).Nodup →
      isOutOfFuel (runLoop wf env (wf.nodes.length + 1) (startExecution s)).1 = false ∧
      ((runLoop wf env (wf.nodes.length + 1) (startExecution s)).2.1).length ≤
        wf.nodes.length) := by
  constructor
  · intro n
    cases n with
    | zero => rfl
    | succ n =>
        have hc : (startExecution "n1").currentNodeId = some "n1" := rfl
        unfold runLoop
        rw [hc]
        dsimp only
        rw [stepNode_loopStart]
        dsimp only
        rw [runLoop_loopFix n]
        rfl
  · intro wf env s hwf hstart hnd
    have hvalid : ∀ s2, (startExecution s).currentNodeId = some s2 →
        ∃ n ∈ wf.nodes, n.id = s2 := by
      intro s2 h2
      injection h2 with h3
      rw [← h3]
      exact startNodeId_some_valid wf s hstart
    have hsub := runLoop_visited_subset wf env hwf (wf.nodes.length + 1)
      (startExecution s) hvalid
    have hsub2 : (runLoop wf env (wf.nodes.length + 1) (startExecution s)).2.1 ⊆
        wf.nodes.map (fun n => n.id) := by
      intro x hx
      obtain ⟨n2, hn2, hid⟩ := hsub x hx
      exact List.mem_map.mpr ⟨n2, hn2, hid⟩
    have hle : ((runLoop wf env (wf.nodes.length + 1) (startExecution s)).2.1).length ≤
        wf.nodes.length := by
      have := List.Subperm.length_le (List.subperm_of_subset hnd hsub2)
      simpa using this
    refine ⟨?_, hle⟩
    rcases hr : runLoop wf env (wf.nodes.length + 1) (startExecution s) with ⟨r1, vs, cs⟩
    cases r1 with
    | done e => rfl
    | failedRun e err => rfl
    | outOfFuel e =>
        have hlen := runLoop_outOfFuel_len wf env (wf.nodes.length + 1)
          (startExecution s) e vs cs hr
        rw [hr] at hle
        dsimp only at hle
        omega

theorem claim9_witness :
    isOutOfFuel (runLoop wfLoop fixedEnv 3 (startExecution "n1")).1 = true ∧
    isOutOfFuel (runLoop wfCondBad fixedEnv (wfCondBad.nodes.length + 1)
      (startExecution "c1")).1 = false :=
  ⟨claim9_amended.1 3,
   (claim9_amended.2 wfCondBad fixedEnv "c1"
      (fun ed hed => absurd hed (by simp [wfCondBad]))
      rfl (by decide)).1⟩



-- helper: _sign_and_execute with no grant raises SigningException and calls nothing
lemma signAndExecute_no_grant (env : Env) (userId sca actionType : String) (q : Quote)
    (msg : String) (target : Val) (value : Int)
    (hv : pyInt (quoteAmountStr q) = some value)
    (hg : env.findGrant target value = none) :
    signAndExecute env userId sca actionType q msg target =
      (.error (.signingError (grantDenialMsg userId)), []) := by
  unfold signAndExecute
  rw [hv]
  dsimp only
  rw [hg]
  rfl

-- helper: a nonempty execute-call trace implies a resolved grant
lemma signAndExecute_trace (env : Env) (userId sca actionType : String) (q : Quote)
    (msg : String) (target : Val) :
    (signAndExecute env userId sca actionType q msg target).2 = [] ∨
    ∃ value grant, pyInt (quoteAmountStr q) = some value ∧
      env.findGrant target value = some grant := by
  unfold signAndExecute
  cases hv : pyInt (quoteAmountStr q) with
  | none => exact Or.inl rfl
  | some value =>
      dsimp only
      cases hg : env.findGrant target value with
      | none => exact Or.inl rfl
      | some grant => exact Or.inr ⟨value, grant, rfl, hg⟩

-- helper: a transactional step with no grant errors with SigningException, no calls
lemma stepNode_no_grant (wf : PWorkflow) (env : Env) (e : ExecutionRec) (nid : String)
    (node : PNode) (rcfg : List (String × Val)) (q : Quote) (msg : String) (target : Val)
    (value : Int)
    (hmap : nodesMapGet wf.nodes nid = some node)
    (hty : (node.type == "condition") = false)
    (hres : resolveInputs node.config e.executionData = .ok rcfg)
    (hq : getQuoteForAction env node.type rcfg wf.scaAddress = .ok (q, msg, target))
    (hv : pyInt (quoteAmountStr q) = some value)
    (hg : env.findGrant target value = none) :
    stepNode wf env e nid = (.error (.signingError (grantDenialMsg wf.userId)), []) := by
  unfold stepNode
  rw [hmap]
  dsimp only
  rw [hres]
  dsimp only
  rw [if_neg (by simp [hty])]
  rw [hq]
  dsimp only
  rw [signAndExecute_no_grant env wf.userId wf.scaAddress node.type q msg target value hv hg]

-- helper: a step's execute-call trace is nonempty only if a grant was resolved
lemma stepNode_trace (wf : PWorkflow) (env : Env) (e : ExecutionRec) (nid : String) :
    (stepNode wf env e nid).2 = [] ∨
    ∃ target value grant, env.findGrant target value = some grant := by
  unfold stepNode
  cases hm : nodesMapGet wf.nodes nid with
  | none => exact Or.inl rfl
  | some node =>
      dsimp only
      cases hres : resolveInputs node.config e.executionData with
      | error re => exact Or.inl rfl
      | ok rcfg =>
          dsimp only
          by_cases hty : (node.type == "condition") = true
          · rw [if_pos hty]
            cases hcond : handleCondition env rcfg with
            | error er => exact Or.inl rfl
            | ok b => exact Or.inl rfl
          · rw [if_neg hty]
            cases hq : getQuoteForAction env node.type rcfg wf.scaAddress with
            | error er => exact Or.inl rfl
            | ok tri =>
                rcases tri with ⟨q, msg, target⟩
                dsimp only
                rcases hsx : signAndExecute env wf.userId wf.scaAddress node.type q msg target
                  with ⟨sres, calls⟩
                rcases signAndExecute_trace env wf.userId wf.scaAddress node.type q msg target
                  with htr | htr
                · rw [hsx] at htr
                  dsimp only at htr
                  subst htr
                  cases sres with
                  | error er => exact Or.inl rfl
                  | ok tx => exact Or.inl rfl
                · obtain ⟨value, grant, _, hg⟩ := htr
                  exact Or.inr ⟨target, value, grant, hg⟩

-- helper: one loop iteration failing at the cursor node
lemma runLoop_fail_step (wf : PWorkflow) (env : Env) (fuel : Nat) (e : ExecutionRec)
    (nid : String) (err : EngError)
    (hcur : e.currentNodeId = some nid)
    (hstep : stepNode wf env e nid = (.error err, [])) :
    runLoop wf env (fuel + 1) e =
      (.failedRun (failExecution e (.vDict [("message", .vStr (engErrStr err))])) err,
        [nid], []) := by
  unfold runLoop
  rw [hcur]
  dsimp only
  rw [hstep]

-- helper: with a never-granting resolver no run makes any execute call
lemma runLoop_trace_empty (wf : PWorkflow) (env : Env)
    (hnone : ∀ target value, env.findGrant target value = none) :
    ∀ (fuel : Nat) (e0 : ExecutionRec), (runLoop wf env fuel e0).2.2 = [] := by
  intro fuel
  induction fuel with
  | zero => intro e0; rfl
  | succ n ih =>
      intro e0
      unfold runLoop
      cases hc : e0.currentNodeId with
      | none => rfl
      | some nid =>
          dsimp only
          rcases hs : stepNode wf env e0 nid with ⟨res, calls⟩
          have hcalls : calls = [] := by
            rcases stepNode_trace wf env e0 nid with h | h
            · rw [hs] at h; exact h
            · obtain ⟨t, v, g, hg⟩ := h
              rw [hnone t v] at hg
              cases hg
          subst hcalls
          cases res with
          | error er => rfl
          | ok e3 =>
              dsimp only
              rw [List.nil_append]
              exact ih e3

/-- C1: the engine's execute path is guarded by the grant resolver, for
every transactional node kind (`swap`, `bridge`, `stake`, `supply_asset`
— any non-`condition` node), quote, config and workflow.
(1) Whenever `find_valid_grant_for_action` returns none for the computed
target and value, `_sign_and_execute` raises the `SigningException` and
makes no provider execute call (empty trace), for every action type and
quote.  (2) Conversely, a nonempty execute-call trace is possible only
after the resolver returned a non-null grant for the computed target and
value.  (3) At the engine level, executing any transactional node whose
grant resolution returns none errors with the `SigningException`, makes
no execute call, and the loop marks the execution failed with
`failed_at_node` equal to that node's id.  (4) Under a resolver that
never grants, a whole run of any workflow makes no execute call at all. -/
theorem claim1_no_execute_without_grant :
    (∀ (env : Env) (userId sca actionType : String) (q : Quote) (msg : String)
        (target : Val) (value : Int),
      pyInt (quoteAmountStr q) = some value →
      env.findGrant target value = none →
      signAndExecute env userId sca actionType q msg target =
        (.error (.signingError (grantDenialMsg userId)), [])) ∧
    (∀ (env : Env) (userId sca actionType : String) (q : Quote) (msg : String)
        (target : Val),
      (signAndExecute env userId sca actionType q msg target).2 ≠ [] →
      ∃ value grant, pyInt (quoteAmountStr q) = some value ∧
        env.findGrant target value = some grant) ∧
    (∀ (wf : PWorkflow) (env : Env) (e : ExecutionRec) (fuel : Nat) (nid : String)
        (node : PNode) (rcfg : List (String × Val)) (q : Quote) (msg : String)
        (target : Val) (value : Int),
      e.currentNodeId = some nid →
      nodesMapGet wf.nodes nid = some node →
      (node.type == "condition") = false →
      resolveInputs node.config e.executionData = .ok rcfg →
      getQuoteForAction env node.type rcfg wf.scaAddress = .ok (q, msg, target) →
      pyInt (quoteAmountStr q) = some value →
      env.findGrant target value = none →
      stepNode wf env e nid = (.error (.signingError (grantDenialMsg wf.userId)), []) ∧
      runLoop wf env (fuel + 1) e =
        (.failedRun (failExecution e (.vDict [("message", .vStr (grantDenialMsg wf.userId))]))
          (.signingError (grantDenialMsg wf.userId)), [nid], []) ∧
      (failExecution e (.vDict [("message", .vStr (grantDenialMsg wf.userId))])).status =
        .failed ∧
      (failExecution e (.vDict [("message", .vStr (grantDenialMsg wf.userId))])).result =
        some (.vDict [("error",
          .vStr (pyRepr (.vDict [("message", .vStr (grantDenialMsg wf.userId))]))),
          ("failed_at_node", .vStr nid)])) ∧
    (∀ (wf : PWorkflow) (env : Env) (fuel : Nat) (e0 : ExecutionRec),
      (∀ target value, env.findGrant target value = none) →
      (runLoop wf env fuel e0).2.2 = []) := by
  refine ⟨?_, ?_, ?_, ?_⟩
  · intro env userId sca actionType q msg target value hv hg
    exact signAndExecute_no_grant env userId sca actionType q msg target value hv hg
  · intro env userId sca actionType q msg target hne
    rcases signAndExecute_trace env userId sca actionType q msg target with h | h
    · exact absurd h hne
    · exact h
  · intro wf env e fuel nid node rcfg q msg target value hcur hmap hty hres hq hv hg
    have hstep := stepNode_no_grant wf env e nid node rcfg q msg target value
      hmap hty hres hq hv hg
    refine ⟨hstep, ?_, rfl, ?_⟩
    · exact runLoop_fail_step wf env fuel e nid (.signingError (grantDenialMsg wf.userId))
        hcur hstep
    · unfold failExecution
      dsimp only
      rw [hcur]
      rfl
  · intro wf env fuel e0 hnone
    exact runLoop_trace_empty wf env hnone fuel e0

/-- C1 witness: the theorem applied to concrete inputs — a denied bridge
action at `_sign_and_execute` level, a denied swap node at the engine
level under `fixedEnv` (whose resolver never grants), a granted swap
under `grantEnv` whose one execute call exhibits the resolved grant, and
a three-iteration run with no execute call. -/
theorem claim1_witness :
    signAndExecute fixedEnv "u1" "0xSCA" "bridge" (.bridge ⟨"qb", "7"⟩) "qb" (.vStr "0xT") =
      (.error (.signingError (grantDenialMsg "u1")), []) ∧
    (∃ value grant, pyInt (quoteAmountStr (.swap ⟨"q1", "100", []⟩)) = some value ∧
      grantEnv.findGrant (.vStr "0xT") value = some grant) ∧
    stepNode (swapWf "s1") fixedEnv (startExecution "s1") "s1" =
      (.error (.signingError (grantDenialMsg "u1")), []) ∧
    (runLoop (swapWf "s1") fixedEnv 3 (startExecution "s1")).2.2 = [] :=
  ⟨claim1_no_execute_without_grant.1 fixedEnv "u1" "0xSCA" "bridge" (.bridge ⟨"qb", "7"⟩)
      "qb" (.vStr "0xT") 7 rfl rfl,
   claim1_no_execute_without_grant.2.1 grantEnv "u1" "0xSCA" "swap" (.swap ⟨"q1", "100", []⟩)
      "q1" (.vStr "0xT") (by decide),
   (claim1_no_execute_without_grant.2.2.1 (swapWf "s1") fixedEnv (startExecution "s1") 0 "s1"
      ⟨"s1", "swap", swapCfg⟩ swapCfg (.swap ⟨"q1", "100", []⟩) "q1" (.vStr "0xA") 100
      rfl rfl rfl rfl rfl rfl rfl).1,
   claim1_no_execute_without_grant.2.2.2 (swapWf "s1") fixedEnv 3 (startExecution "s1")
      (fun _ _ => rfl)⟩
end Copil
